import Mathlib

/-!
Verification of the content scoring and ranking engine of the
`canada-pet-pulse` repository: a shallow embedding in Lean 4 of
`src/processors/canadian_filter.py` (the `CanadianFilter` class) and
`src/processors/content_ranker.py` (the `ContentRanker` class), together
with proofs and refutations of the frozen specification claims.

Modelling conventions:
* Python strings are `List Char`; a Python value that may be a string or
  `None` is `Option (List Char)`; a dictionary field that may be absent is
  an `Option` field of a structure (`none` models "key not present").
* Python floats are modelled exactly as rationals `ℚ`; every numeric
  constant of the two modules is a decimal fraction, so this is exact.
  `math.log10` is the one transcendental operation; it is carried as an
  explicit function parameter `log10 : ℚ → ℚ`, since no verified property
  depends on its values.
* `re` word-boundary search `\b pat \b` (every pattern of the module
  starts and ends with a word character) is modelled by `searchWB`:
  a match of `pat` at position `i` such that the character before `i`
  (if any) and the character after the match (if any) are non-word
  characters.  Word characters (`\w`) are modelled as ASCII alphanumerics,
  the underscore, and the accented letters occurring in the term lists.
  Case-insensitive matching is modelled by lowercasing both sides with
  `pyLower` (ASCII case folding plus the accented letters of the lists).
-/

namespace PetPulse

/-- Python's binary `min` on exact rationals, written as a conditional so
that proofs by `decide` can evaluate it. -/
def pymin (a b : ℚ) : ℚ := if a ≤ b then a else b

/-- Python's binary `max` on exact rationals. -/
def pymax (a b : ℚ) : ℚ := if a ≤ b then b else a

/-- Model of `re`'s word character class `\w` for the texts handled here:
ASCII alphanumerics, underscore, and the accented letters of the term lists. -/
def isWordChar (c : Char) : Bool :=
  c.isAlphanum || c == '_' || c == 'è' || c == 'È' || c == 'é' || c == 'É'

/-- Model of Python `str.lower` / `re.IGNORECASE` case folding, for ASCII
plus the accented letters of the term lists. -/
def pyLower (c : Char) : Char :=
  if c == 'È' then 'è' else if c == 'É' then 'é' else c.toLower

/-- `pat` occurs in `text` starting at position `i`. -/
def matchAt (pat text : List Char) (i : Nat) : Bool :=
  pat.isPrefixOf (text.drop i)

/-- `pat` occurs at position `i` with `\b` word boundaries on both sides
(for patterns that start and end with a word character, as all patterns of
`canadian_filter.py` do). -/
def boundedAt (pat text : List Char) (i : Nat) : Bool :=
  matchAt pat text i && (i == 0 || !isWordChar (text.getD (i - 1) ' '))
    && !isWordChar (text.getD (i + pat.length) ' ')

/-- Model of `re.search` for a pattern `\b pat \b`: some position carries a
word-bounded match. -/
def searchWB (pat text : List Char) : Bool :=
  (List.range (text.length + 1)).any (boundedAt pat text)

/-- Model of Python's `pat in text` substring containment. -/
def containsSub (pat text : List Char) : Bool :=
  (List.range (text.length + 1)).any (matchAt pat text)

/-- `[A-Za-z]` (the effect of `[A-Z]` under `re.IGNORECASE`). -/
def isPyLetter (c : Char) : Bool :=
  ('A' ≤ c && c ≤ 'Z') || ('a' ≤ c && c ≤ 'z')

/-- `\d` restricted to ASCII digits. -/
def isPyDigit (c : Char) : Bool :=
  '0' ≤ c && c ≤ '9'

/-- `\s`: Python whitespace characters. -/
def isPySpace (c : Char) : Bool :=
  c == ' ' || c == '\t' || c == '\n' || c == '\r' || c == '\x0b' || c == '\x0c'

/-- The postal pattern `[A-Z]\d[A-Z]\d[A-Z]\d` branch (no interior space)
matching at the head of the list, with the trailing `\b` boundary. -/
def postalNoSpace : List Char → Bool
  | a :: b :: c :: d :: e :: f :: rest =>
    isPyLetter a && isPyDigit b && isPyLetter c && isPyDigit d && isPyLetter e
      && isPyDigit f && !isWordChar (rest.getD 0 ' ')
  | _ => false

/-- The postal pattern branch with one interior whitespace character
(`[A-Z]\d[A-Z]\s\d[A-Z]\d`) matching at the head, with trailing `\b`. -/
def postalWithSpace : List Char → Bool
  | a :: b :: c :: s :: d :: e :: f :: rest =>
    isPyLetter a && isPyDigit b && isPyLetter c && isPySpace s && isPyDigit d
      && isPyLetter e && isPyDigit f && !isWordChar (rest.getD 0 ' ')
  | _ => false

/-- `POSTAL_CODE_PATTERN = r'\b[A-Z]\d[A-Z]\s?\d[A-Z]\d\b'` matching at
position `i` of `text` (leading `\b` boundary plus either branch). -/
def postalAt (text : List Char) (i : Nat) : Bool :=
  (i == 0 || !isWordChar (text.getD (i - 1) ' '))
    && (postalNoSpace (text.drop i) || postalWithSpace (text.drop i))

/-- `self.postal_code_regex.search(text)` of `CanadianFilter`. -/
def postalSearch (text : List Char) : Bool :=
  (List.range (text.length + 1)).any (postalAt text)

/-- `CanadianFilter.CITIES` (canadian_filter.py lines 27-33). -/
def CITIES : List (List Char) :=
  ["toronto", "vancouver", "montreal", "calgary", "ottawa",
   "edmonton", "winnipeg", "quebec city", "hamilton", "kitchener",
   "london", "victoria", "halifax", "oshawa", "windsor",
   "saskatoon", "regina", "kelowna", "barrie", "sherbrooke",
   "guelph", "kanata", "abbotsford", "kingston", "trois-rivières"].map
    String.toList

/-- `CanadianFilter.PROVINCES` (lines 36-42). -/
def PROVINCES : List (List Char) :=
  ["ontario", "quebec", "british columbia", "alberta", "manitoba",
   "saskatchewan", "nova scotia", "new brunswick",
   "newfoundland and labrador", "newfoundland", "labrador",
   "prince edward island", "pei",
   "northwest territories", "nunavut", "yukon"].map String.toList

/-- `CanadianFilter.PROVINCE_CODES` (lines 45-47). -/
def PROVINCE_CODES : List (List Char) :=
  ["on", "qc", "bc", "ab", "mb", "sk", "ns", "nb", "nl", "pe", "nt",
   "nu", "yt"].map String.toList

/-- `CanadianFilter.KEYWORDS` (lines 50-57). -/
def KEYWORDS : List (List Char) :=
  ["canada", "canadian", "canuck", "canadians",
   "cra", "rcmp", "cbsa", "health canada",
   "tim hortons", "timmies", "loblaws", "canadian tire",
   "shoppers drug mart", "sobeys"].map String.toList

/-- City contribution of `calculate_canadian_score` (lines 108-113):
`min(city_matches * 0.3, 0.5)`, where `city_matches` counts the city
patterns (word-bounded, case insensitive) that occur in the text.
`tl` is the case-folded text. -/
def cities_contrib (tl : List Char) : ℚ :=
  pymin ((CITIES.countP (fun p => searchWB p tl) : ℚ) * (3 / 10)) (1 / 2)

/-- Province contribution (lines 115-126):
`min((province_matches + province_code_matches) * 0.2, 0.3)`. -/
def provinces_contrib (tl : List Char) : ℚ :=
  pymin (((PROVINCES.countP (fun p => searchWB p tl)
      + PROVINCE_CODES.countP (fun p => searchWB p tl) : Nat) : ℚ) * (1 / 5))
    (3 / 10)

/-- Keyword contribution (lines 128-133): `min(keyword_matches * 0.15, 0.3)`,
where a keyword matches by plain substring containment in `text.lower()`. -/
def keywords_contrib (tl : List Char) : ℚ :=
  pymin ((KEYWORDS.countP (fun p => containsSub p tl) : ℚ) * (3 / 20)) (3 / 10)

/-- Postal-code contribution (lines 135-137): flat `0.2` when the postal
regex matches the (original, not lowercased) text. -/
def postal_contrib (text : List Char) : ℚ :=
  if postalSearch text then 1 / 5 else 0

/-- `CanadianFilter.calculate_canadian_score` (lines 85-140).  The argument
is `Option (List Char)`: `none` models a Python `None` argument, which the
`if not text` guard sends to `0.0` exactly like the empty string. -/
def calculate_canadian_score : Option (List Char) → ℚ
  | none => 0
  | some text =>
    if text = [] then 0
    else
      pymin (cities_contrib (text.map pyLower) + provinces_contrib (text.map pyLower)
        + keywords_contrib (text.map pyLower) + postal_contrib text) 1

/-! ### The content record model

A Python content dictionary (Reddit post or news article) as handled by
`CanadianFilter.is_canadian` and `CanadianFilter.filter_by_subreddit`.
`none` in a field models the key being absent from the dictionary. -/

structure Content where
  title : Option (List Char)
  selftext : Option (List Char)
  summary : Option (List Char)
  subreddit : Option (List Char)
  canadian_score : Option ℚ
deriving DecidableEq

/-- The searchable text assembled by `is_canadian` (lines 153-162):
`content.get('title', '')`, plus `' ' + selftext` when the `selftext` key
is present, plus `' ' + summary` when the `summary` key is present. -/
def searchableText (c : Content) : List Char :=
  (c.title.getD [])
    ++ (match c.selftext with | none => [] | some s => ' ' :: s)
    ++ (match c.summary with | none => [] | some s => ' ' :: s)

/-- `CanadianFilter.is_canadian` (lines 142-170).  Returns the updated
record (the score is attached under `canadian_score`) together with the
boolean `score >= threshold`. -/
def is_canadian (content : Content) (threshold : ℚ) : Content × Bool :=
  let score := calculate_canadian_score (some (searchableText content))
  ({ content with canadian_score := some score }, decide (threshold ≤ score))

/-- The `canadian_subreddits` set of `filter_by_subreddit` (lines 210-214). -/
def canadian_subreddits : List (List Char) :=
  ["canada", "toronto", "vancouver", "montreal", "calgary",
   "ottawa", "edmonton", "winnipeg", "onguardforthee",
   "britishcolumbia", "ontario", "quebec", "alberta"].map String.toList

/-- The `pet_subreddits` set (lines 216-219). -/
def pet_subreddits : List (List Char) :=
  ["dogs", "puppy101", "dogtraining", "cats", "catadvice",
   "pets", "aww"].map String.toList

/-- `CanadianFilter.filter_by_subreddit` (lines 196-254): the three-tier
origin policy.  The subreddit name is read with `post.get('subreddit', '')`
and lowercased before the set lookups. -/
def filter_by_subreddit : List Content → List Content
  | [] => []
  | post :: rest =>
    let sub := (post.subreddit.getD []).map pyLower
    if sub ∈ canadian_subreddits then
      { post with canadian_score := some 1 } :: filter_by_subreddit rest
    else if sub ∈ pet_subreddits then
      match is_canadian post (3 / 20) with
      | (p, true) => p :: filter_by_subreddit rest
      | (_, false) => filter_by_subreddit rest
    else
      match is_canadian post (3 / 10) with
      | (p, true) => p :: filter_by_subreddit rest
      | (_, false) => filter_by_subreddit rest

/-- The dictionary returned by `get_filter_statistics`; `none` in the last
three fields models the key being absent (as in the empty-input branch,
lines 266-272). -/
structure FilterStats where
  total_items : Nat
  avg_score : ℚ
  min_score : ℚ
  max_score : ℚ
  high_relevance : Option Nat
  medium_relevance : Option Nat
  low_relevance : Option Nat
deriving DecidableEq

/-- Python `min(scores)` over a non-empty list (left fold from the head). -/
def listMin : List ℚ → ℚ
  | [] => 0
  | x :: xs => xs.foldl pymin x

/-- Python `max(scores)` over a non-empty list. -/
def listMax : List ℚ → ℚ
  | [] => 0
  | x :: xs => xs.foldl pymax x

/-- `CanadianFilter.get_filter_statistics` (lines 256-284). -/
def get_filter_statistics (content_list : List Content) : FilterStats :=
  match content_list with
  | [] =>
    { total_items := 0, avg_score := 0, min_score := 0, max_score := 0,
      high_relevance := none, medium_relevance := none, low_relevance := none }
  | _ =>
    let scores := content_list.map (fun c => c.canadian_score.getD 0)
    { total_items := content_list.length
      avg_score := scores.sum / (scores.length : ℚ)
      min_score := listMin scores
      max_score := listMax scores
      high_relevance := some (scores.countP (fun s => decide ((7 : ℚ) / 10 ≤ s)))
      medium_relevance :=
        some (scores.countP
          (fun s => decide ((3 : ℚ) / 10 ≤ s) && decide (s < 7 / 10)))
      low_relevance := some (scores.countP (fun s => decide (s < (3 : ℚ) / 10))) }

/-! ### The trending ranker (`src/processors/content_ranker.py`)

`math.log10` is carried as an explicit parameter `log10 : ℚ → ℚ`; none of
the verified claims depend on its values.  `round(x, 3)` is modelled by
`round3` with mathematical half-up rounding; no claim depends on the
treatment of exact half-thousandths. -/

/-- A Reddit post as read by `ContentRanker.calculate_reddit_score`
(lines 41-44); `none` models the dictionary key being absent. -/
structure RedditPost where
  score : Option Int
  num_comments : Option Int
  created_utc : Option ℚ
  canadian_score : Option ℚ
deriving DecidableEq

/-- The `published` field of a news article as consumed by
`calculate_news_score` (lines 90-105): either the key is absent (`get`
yields `''`, whose parse fails), or it is a string `dateutil` cannot parse
(`isoparse` raises), or a non-string value, or a string parsing to the
epoch instant `t` (already normalized to UTC). -/
inductive Published
  | missing
  | badString
  | nonString
  | parsed (t : ℚ)
deriving DecidableEq

/-- A news article as read by `calculate_news_score` (lines 90-92). -/
structure NewsArticle where
  published : Published
  source : Option (List Char)
  canadian_score : Option ℚ
deriving DecidableEq

/-- The Reddit age computation (line 52):
`(now - created_utc) / 3600 if created_utc > 0 else 999`. -/
def redditAgeHours (now : ℚ) (post : RedditPost) : ℚ :=
  if 0 < post.created_utc.getD 0 then (now - post.created_utc.getD 0) / 3600
  else 999

/-- The Reddit time-decay step function (lines 55-62). -/
def redditTimeMultiplier (age_hours : ℚ) : ℚ :=
  if age_hours < 6 then 1
  else if age_hours < 12 then 4 / 5
  else if age_hours < 24 then 1 / 2
  else 1 / 5

/-- The news age computation (lines 94-109): an unparseable, absent or
non-string timestamp defaults the publication instant to `now`, so the age
is `0`; otherwise the age is `(now - t) / 3600`. -/
def newsAgeHours (now : ℚ) (article : NewsArticle) : ℚ :=
  match article.published with
  | .parsed t => (now - t) / 3600
  | _ => 0

/-- The news time-decay step function (lines 111-118). -/
def newsTimeMultiplier (age_hours : ℚ) : ℚ :=
  if age_hours < 6 then 1
  else if age_hours < 12 then 7 / 10
  else if age_hours < 24 then 2 / 5
  else 1 / 10

/-- `round(x, 3)` (lines 72 and 133). -/
def round3 (x : ℚ) : ℚ := (round (x * 1000) : ℤ) / 1000

/-- `ContentRanker.calculate_reddit_score` (lines 25-72). -/
def calculate_reddit_score (log10 : ℚ → ℚ) (now : ℚ)
    (post : RedditPost) : ℚ :=
  let engagement : ℚ :=
    (post.score.getD 0 : ℚ) * 1 + (post.num_comments.getD 0 : ℚ) * 2
  let time_multiplier := redditTimeMultiplier (redditAgeHours now post)
  let canadian_boost : ℚ := 1 + post.canadian_score.getD 0 * (1 / 2)
  round3 (log10 (pymax engagement 1) * time_multiplier * canadian_boost)

/-- The `major_sources` allow-list (line 121). -/
def major_sources : List (List Char) :=
  ["CBC", "CTV", "Global News", "Toronto Star", "Globe and Mail"].map
    String.toList

/-- The source-credibility boost (line 122): `1.3` iff some allow-listed
name occurs as a (case-sensitive) substring of the source string. -/
def sourceBoost (article : NewsArticle) : ℚ :=
  if major_sources.any (fun s => containsSub s (article.source.getD []))
  then 13 / 10 else 1

/-- `ContentRanker.calculate_news_score` (lines 74-133). -/
def calculate_news_score (now : ℚ) (article : NewsArticle) : ℚ :=
  let time_multiplier := newsTimeMultiplier (newsAgeHours now article)
  let canadian_boost : ℚ := 1 + article.canadian_score.getD 0 * (1 / 2)
  let base_score : ℚ := 5
  round3 (base_score * time_multiplier * sourceBoost article * canadian_boost)

/-- The `content_type` tag attached by `rank_all_content`. -/
inductive ContentType
  | reddit
  | news
deriving DecidableEq

/-- An item of the merged ranked list: the original record plus the
`trending_score` and `content_type` fields written by `rank_all_content`. -/
structure RankedItem where
  payload : RedditPost ⊕ NewsArticle
  trending_score : ℚ
  content_type : ContentType
deriving DecidableEq

/-- The annotation performed on each Reddit post (lines 150-153). -/
def tagReddit (log10 : ℚ → ℚ) (now : ℚ) (post : RedditPost) : RankedItem :=
  ⟨Sum.inl post, calculate_reddit_score log10 now post, ContentType.reddit⟩

/-- The annotation performed on each news article (lines 156-159). -/
def tagNews (now : ℚ) (article : NewsArticle) : RankedItem :=
  ⟨Sum.inr article, calculate_news_score now article, ContentType.news⟩

/-- The descending comparison used by
`sorted(all_content, key=lambda x: x['trending_score'], reverse=True)`. -/
def rankLE (a b : RankedItem) : Prop :=
  b.trending_score ≤ a.trending_score

instance : DecidableRel rankLE :=
  fun a b => inferInstanceAs (Decidable (b.trending_score ≤ a.trending_score))

instance : IsTotal RankedItem rankLE :=
  ⟨fun a b => le_total b.trending_score a.trending_score⟩

instance : IsTrans RankedItem rankLE :=
  ⟨fun _ _ _ h1 h2 => le_trans h2 h1⟩

/-- `ContentRanker.rank_all_content` (lines 135-173): tag and score both
lists, concatenate (Reddit first, as in the code), and sort descending by
trending score.  Python's `sorted` is a stable sort; it is modelled by
`List.insertionSort`, which is also stable, and any two stable sorts by
the same key agree extensionally. -/
def rank_all_content (log10 : ℚ → ℚ) (now : ℚ)
    (reddit_posts : List RedditPost)
    (news_articles : List NewsArticle) : List RankedItem :=
  List.insertionSort rankLE
    (reddit_posts.map (tagReddit log10 now) ++ news_articles.map (tagNews now))

/-- The dictionary returned by `get_ranking_statistics`; `none` models a
key absent from the returned dictionary (the empty-input branch,
lines 198-204). -/
structure RankStats where
  total_items : Nat
  avg_score : ℚ
  max_score : ℚ
  min_score : ℚ
  reddit_items : Option Nat
  news_items : Option Nat
  top_5_scores : Option (List ℚ)
deriving DecidableEq

/-- `ContentRanker.get_ranking_statistics` (lines 188-218). -/
def get_ranking_statistics (content : List RankedItem) : RankStats :=
  match content with
  | [] =>
    { total_items := 0, avg_score := 0, max_score := 0, min_score := 0,
      reddit_items := none, news_items := none, top_5_scores := none }
  | _ =>
    let scores := content.map (fun c => c.trending_score)
    { total_items := content.length
      avg_score := scores.sum / (scores.length : ℚ)
      max_score := listMax scores
      min_score := listMin scores
      reddit_items :=
        some (content.countP
          (fun c => decide (c.content_type = ContentType.reddit)))
      news_items :=
        some (content.countP
          (fun c => decide (c.content_type = ContentType.news)))
      top_5_scores :=
        some (if 5 ≤ scores.length then scores.take 5 else scores) }

/-! ### Helper lemmas -/

theorem pymin_eq_min (a b : ℚ) : pymin a b = min a b := (min_def a b).symm

theorem pymax_eq_max (a b : ℚ) : pymax a b = max a b := (max_def a b).symm

/-- Evaluation helper: `calculate_canadian_score` on a concrete non-empty
text, expressed through the four match counts and the postal flag. -/
theorem score_eval (t : List Char) (ht : ¬t = []) (nc np npc nk : Nat)
    (pb : Bool)
    (hc : List.countP (fun p => searchWB p (t.map pyLower)) CITIES = nc)
    (hp : List.countP (fun p => searchWB p (t.map pyLower)) PROVINCES = np)
    (hpc : List.countP (fun p => searchWB p (t.map pyLower)) PROVINCE_CODES
      = npc)
    (hk : List.countP (fun p => containsSub p (t.map pyLower)) KEYWORDS = nk)
    (hpo : postalSearch t = pb) :
    calculate_canadian_score (some t)
      = pymin (pymin ((nc : ℚ) * (3 / 10)) (1 / 2)
          + pymin (((np + npc : Nat) : ℚ) * (1 / 5)) (3 / 10)
          + pymin ((nk : ℚ) * (3 / 20)) (3 / 10)
          + (if pb then (1 / 5 : ℚ) else 0)) 1 := by
  rw [calculate_canadian_score, if_neg ht, cities_contrib, provinces_contrib,
    keywords_contrib, postal_contrib, hc, hp, hpc, hk, hpo]


theorem cities_contrib_nonneg (tl : List Char) : 0 ≤ cities_contrib tl := by
  rw [cities_contrib, pymin_eq_min]
  exact le_min (by positivity) (by norm_num)

theorem cities_contrib_le (tl : List Char) : cities_contrib tl ≤ 1 / 2 := by
  rw [cities_contrib, pymin_eq_min]; exact min_le_right _ _

theorem provinces_contrib_nonneg (tl : List Char) :
    0 ≤ provinces_contrib tl := by
  rw [provinces_contrib, pymin_eq_min]
  exact le_min (by positivity) (by norm_num)

theorem provinces_contrib_le (tl : List Char) :
    provinces_contrib tl ≤ 3 / 10 := by
  rw [provinces_contrib, pymin_eq_min]; exact min_le_right _ _

theorem keywords_contrib_nonneg (tl : List Char) :
    0 ≤ keywords_contrib tl := by
  rw [keywords_contrib, pymin_eq_min]
  exact le_min (by positivity) (by norm_num)

theorem keywords_contrib_le (tl : List Char) :
    keywords_contrib tl ≤ 3 / 10 := by
  rw [keywords_contrib, pymin_eq_min]; exact min_le_right _ _

theorem postal_contrib_nonneg (text : List Char) : 0 ≤ postal_contrib text := by
  rw [postal_contrib]; split <;> norm_num

theorem postal_contrib_le (text : List Char) : postal_contrib text ≤ 1 / 5 := by
  rw [postal_contrib]; split <;> norm_num

theorem contrib_sum_nonneg (t : List Char) :
    0 ≤ cities_contrib (t.map pyLower) + provinces_contrib (t.map pyLower)
      + keywords_contrib (t.map pyLower) + postal_contrib t := by
  have h1 := cities_contrib_nonneg (t.map pyLower)
  have h2 := provinces_contrib_nonneg (t.map pyLower)
  have h3 := keywords_contrib_nonneg (t.map pyLower)
  have h4 := postal_contrib_nonneg t
  linarith

theorem calculate_canadian_score_nonneg (text : Option (List Char)) :
    0 ≤ calculate_canadian_score text := by
  match text with
  | none => exact le_refl 0
  | some t =>
    rw [calculate_canadian_score]
    split
    · exact le_refl 0
    · rw [pymin_eq_min]
      exact le_min (contrib_sum_nonneg t) (by norm_num)

theorem calculate_canadian_score_le_one (text : Option (List Char)) :
    calculate_canadian_score text ≤ 1 := by
  match text with
  | none => norm_num [calculate_canadian_score]
  | some t =>
    rw [calculate_canadian_score]
    split
    · norm_num
    · rw [pymin_eq_min]; exact min_le_right _ _

theorem score_nil_counts :
    List.countP (fun p => searchWB p ([] : List Char)) CITIES = 0
      ∧ List.countP (fun p => searchWB p ([] : List Char)) PROVINCES = 0
      ∧ List.countP (fun p => searchWB p ([] : List Char)) PROVINCE_CODES = 0
      ∧ List.countP (fun p => containsSub p ([] : List Char)) KEYWORDS = 0
      ∧ postalSearch [] = false := by
  refine ⟨by decide, by decide, by decide, by decide, by decide⟩

/-- **C1.**  For every input text — `none` (Python `None`), the empty
string, or any other string, however many repeated matching keywords it
contains — `calculate_canadian_score` lies in `[0, 1]`; each signal
category contributes at most its cap (cities `0.5`, provinces `0.3`,
keywords `0.3`, postal code `0.2`); and for a string input the score is
exactly the sum of the four capped contributions clamped at `1.0`. -/
theorem c1_score_bounded_and_capped (text : Option (List Char)) :
    (0 ≤ calculate_canadian_score text ∧ calculate_canadian_score text ≤ 1)
    ∧ (∀ tl : List Char,
        cities_contrib tl ≤ 1 / 2 ∧ provinces_contrib tl ≤ 3 / 10
          ∧ keywords_contrib tl ≤ 3 / 10 ∧ postal_contrib tl ≤ 1 / 5)
    ∧ (∀ t : List Char,
        calculate_canadian_score (some t)
          = pymin (cities_contrib (t.map pyLower)
              + provinces_contrib (t.map pyLower)
              + keywords_contrib (t.map pyLower) + postal_contrib t) 1) := by
  refine ⟨⟨calculate_canadian_score_nonneg text,
    calculate_canadian_score_le_one text⟩,
    fun tl => ⟨cities_contrib_le tl, provinces_contrib_le tl,
      keywords_contrib_le tl, postal_contrib_le tl⟩, fun t => ?_⟩
  rw [calculate_canadian_score]
  split
  · rename_i h
    subst h
    obtain ⟨h1, h2, h3, h4, h5⟩ := score_nil_counts
    rw [cities_contrib, provinces_contrib, keywords_contrib, postal_contrib]
    simp only [List.map_nil, h1, h2, h3, h4, h5]
    norm_num [pymin]
  · rfl

/-! ### Preservation of matches under appending `' ' :: u`

Every match (word-bounded, substring, or postal) found in `t` is still
found in `t ++ ' ' :: u`: the matched characters are unchanged, the left
context is unchanged, and a match that ended at the end of `t` now sees
the appended space, which is not a word character. -/

theorem matchAt_append (pat t u : List Char) (i : Nat) (hi : i ≤ t.length)
    (h : matchAt pat t i = true) : matchAt pat (t ++ u) i = true := by
  simp only [matchAt, List.isPrefixOf_iff_prefix] at h ⊢
  rw [List.drop_append_of_le_length hi]
  exact h.trans ( List.prefix_append _ _)

theorem matchAt_le (pat t : List Char) (i : Nat) (hi : i ≤ t.length)
    (h : matchAt pat t i = true) : i + pat.length ≤ t.length := by
  simp only [matchAt, List.isPrefixOf_iff_prefix] at h
  have hl := h.length_le
  rw [List.length_drop] at hl
  omega

theorem leftBoundary_append (t u : List Char) (i : Nat) (hi : i ≤ t.length)
    (h : (i == 0) = true ∨ (!isWordChar (t.getD (i - 1) ' ')) = true) :
    (i == 0) = true ∨ (!isWordChar ((t ++ ' ' :: u).getD (i - 1) ' ')) = true := by
  rcases h with h0 | hw
  · exact Or.inl h0
  · rcases Nat.eq_zero_or_pos i with hz | hp
    · subst hz; exact Or.inl rfl
    · have hi1 : i - 1 < t.length := by omega
      right
      rw [List.getD_append _ _ _ _ hi1]
      exact hw

theorem rightBoundary_append (t u : List Char) (j : Nat) (hj : j ≤ t.length)
    (h : (!isWordChar (t.getD j ' ')) = true) :
    (!isWordChar ((t ++ ' ' :: u).getD j ' ')) = true := by
  rcases lt_or_eq_of_le hj with hlt | heq
  · rwa [List.getD_append _ _ _ _ hlt]
  · subst heq
    rw [List.getD_append_right _ _ _ _ (le_refl _), Nat.sub_self,
      List.getD_cons_zero]
    decide

theorem boundedAt_append (pat t u : List Char) (i : Nat) (hi : i ≤ t.length)
    (h : boundedAt pat t i = true) : boundedAt pat (t ++ ' ' :: u) i = true := by
  simp only [boundedAt, Bool.and_eq_true, Bool.or_eq_true] at h ⊢
  obtain ⟨⟨hm, hl⟩, hr⟩ := h
  have hlen := matchAt_le pat t i hi hm
  exact ⟨⟨matchAt_append pat t (' ' :: u) i hi hm,
    leftBoundary_append t u i hi hl⟩,
    rightBoundary_append t u (i + pat.length) hlen hr⟩

theorem searchWB_append (pat t u : List Char)
    (h : searchWB pat t = true) : searchWB pat (t ++ ' ' :: u) = true := by
  simp only [searchWB, List.any_eq_true, List.mem_range] at h ⊢
  obtain ⟨i, hi, hb⟩ := h
  refine ⟨i, by simp [List.length_append]; omega,
    boundedAt_append pat t u i (by omega) hb⟩

theorem containsSub_append (pat t u : List Char)
    (h : containsSub pat t = true) : containsSub pat (t ++ u) = true := by
  simp only [containsSub, List.any_eq_true, List.mem_range] at h ⊢
  obtain ⟨i, hi, hm⟩ := h
  refine ⟨i, by simp [List.length_append]; omega,
    matchAt_append pat t u i (by omega) hm⟩

theorem getD_zero_append (rest u : List Char)
    (h : (!isWordChar (rest.getD 0 ' ')) = true) :
    (!isWordChar ((rest ++ ' ' :: u).getD 0 ' ')) = true := by
  cases rest with
  | nil =>
    rw [List.nil_append, List.getD_cons_zero]
    decide
  | cons r rs => simpa [List.getD_cons_zero] using h

theorem postalNoSpace_append (cs u : List Char)
    (h : postalNoSpace cs = true) : postalNoSpace (cs ++ ' ' :: u) = true := by
  match cs with
  | [] => simp [postalNoSpace] at h
  | [_] => simp [postalNoSpace] at h
  | [_, _] => simp [postalNoSpace] at h
  | [_, _, _] => simp [postalNoSpace] at h
  | [_, _, _, _] => simp [postalNoSpace] at h
  | [_, _, _, _, _] => simp [postalNoSpace] at h
  | a :: b :: c :: d :: e :: f :: rest =>
    simp only [postalNoSpace, List.cons_append, Bool.and_eq_true, and_assoc]
      at h ⊢
    obtain ⟨h1, h2, h3, h4, h5, h6, hb⟩ := h
    exact ⟨h1, h2, h3, h4, h5, h6, getD_zero_append rest u hb⟩

theorem postalWithSpace_append (cs u : List Char)
    (h : postalWithSpace cs = true) : postalWithSpace (cs ++ ' ' :: u) = true := by
  match cs with
  | [] => simp [postalWithSpace] at h
  | [_] => simp [postalWithSpace] at h
  | [_, _] => simp [postalWithSpace] at h
  | [_, _, _] => simp [postalWithSpace] at h
  | [_, _, _, _] => simp [postalWithSpace] at h
  | [_, _, _, _, _] => simp [postalWithSpace] at h
  | [_, _, _, _, _, _] => simp [postalWithSpace] at h
  | a :: b :: c :: s :: d :: e :: f :: rest =>
    simp only [postalWithSpace, List.cons_append, Bool.and_eq_true, and_assoc]
      at h ⊢
    obtain ⟨h1, h2, h3, h4, h5, h6, h7, hb⟩ := h
    exact ⟨h1, h2, h3, h4, h5, h6, h7, getD_zero_append rest u hb⟩

theorem postalAt_append (t u : List Char) (i : Nat) (hi : i ≤ t.length)
    (h : postalAt t i = true) : postalAt (t ++ ' ' :: u) i = true := by
  simp only [postalAt, Bool.and_eq_true, Bool.or_eq_true] at h ⊢
  obtain ⟨hl, hm⟩ := h
  refine ⟨?_, ?_⟩
  · exact leftBoundary_append t u i hi hl
  · rw [List.drop_append_of_le_length hi]
    rcases hm with hm | hm
    · exact Or.inl (postalNoSpace_append _ u hm)
    · exact Or.inr (postalWithSpace_append _ u hm)

theorem postalSearch_append (t u : List Char)
    (h : postalSearch t = true) : postalSearch (t ++ ' ' :: u) = true := by
  simp only [postalSearch, List.any_eq_true, List.mem_range] at h ⊢
  obtain ⟨i, hi, hp⟩ := h
  refine ⟨i, by simp [List.length_append]; omega,
    postalAt_append t u i (by omega) hp⟩

theorem pyLower_space : pyLower ' ' = ' ' := by decide

theorem map_pyLower_append_space (t u : List Char) :
    (t ++ ' ' :: u).map pyLower = t.map pyLower ++ ' ' :: u.map pyLower := by
  rw [List.map_append, List.map_cons, pyLower_space]

theorem cities_contrib_append (t u : List Char) :
    cities_contrib (t.map pyLower)
      ≤ cities_contrib ((t ++ ' ' :: u).map pyLower) := by
  rw [cities_contrib, cities_contrib, pymin_eq_min, pymin_eq_min,
    map_pyLower_append_space]
  refine min_le_min (mul_le_mul_of_nonneg_right ?_ (by norm_num)) (le_refl _)
  rw [Nat.cast_le]
  exact List.countP_mono_left (fun p _ hp => searchWB_append p _ _ hp)

theorem provinces_contrib_append (t u : List Char) :
    provinces_contrib (t.map pyLower)
      ≤ provinces_contrib ((t ++ ' ' :: u).map pyLower) := by
  rw [provinces_contrib, provinces_contrib, pymin_eq_min, pymin_eq_min,
    map_pyLower_append_space]
  refine min_le_min (mul_le_mul_of_nonneg_right ?_ (by norm_num)) (le_refl _)
  rw [Nat.cast_le]
  exact Nat.add_le_add
    (List.countP_mono_left (fun p _ hp => searchWB_append p _ _ hp))
    (List.countP_mono_left (fun p _ hp => searchWB_append p _ _ hp))

theorem keywords_contrib_append (t u : List Char) :
    keywords_contrib (t.map pyLower)
      ≤ keywords_contrib ((t ++ ' ' :: u).map pyLower) := by
  rw [keywords_contrib, keywords_contrib, pymin_eq_min, pymin_eq_min,
    map_pyLower_append_space]
  refine min_le_min (mul_le_mul_of_nonneg_right ?_ (by norm_num)) (le_refl _)
  rw [Nat.cast_le]
  exact List.countP_mono_left (fun p _ hp => containsSub_append p _ _ hp)

theorem postal_contrib_append (t u : List Char) :
    postal_contrib t ≤ postal_contrib (t ++ ' ' :: u) := by
  rw [postal_contrib, postal_contrib]
  by_cases h : postalSearch t = true
  · rw [if_pos h, if_pos (postalSearch_append t u h)]
  · rw [if_neg h]
    split <;> norm_num

/-- **C7.**  Appending whitespace-separated extra material (in particular
an additional matching term) to a text never lowers
`calculate_canadian_score`: for every text `t` and every suffix `u`,
`score(t) ≤ score(t ++ ' ' :: u)`.  This subsumes the claim, which appends
one whitespace-separated term matching some category. -/
theorem c7_score_monotone_append (t u : List Char) :
    calculate_canadian_score (some t)
      ≤ calculate_canadian_score (some (t ++ ' ' :: u)) := by
  by_cases ht : t = []
  · subst ht
    simpa using calculate_canadian_score_nonneg (some (' ' :: u))
  · have hne : ¬(t ++ ' ' :: u) = [] := by simp
    rw [calculate_canadian_score, calculate_canadian_score, if_neg ht,
      if_neg hne, pymin_eq_min, pymin_eq_min]
    refine min_le_min ?_ (le_refl _)
    have h1 := cities_contrib_append t u
    have h2 := provinces_contrib_append t u
    have h3 := keywords_contrib_append t u
    have h4 := postal_contrib_append t u
    linarith

/-- A word-bounded pattern cannot match inside a token made entirely of
word characters unless it is the whole token: any match must start at
position `0` (no word character may precede it) and must end at the end of
the token (no word character may follow it). -/
theorem searchWB_allWord (pat t : List Char)
    (hw : ∀ c ∈ t, isWordChar c = true) (hne : t ≠ pat) :
    searchWB pat t = false := by
  by_contra hcon
  rw [Bool.not_eq_false] at hcon
  simp only [searchWB, List.any_eq_true, List.mem_range] at hcon
  obtain ⟨i, hi, hb⟩ := hcon
  simp only [boundedAt, Bool.and_eq_true, Bool.or_eq_true] at hb
  obtain ⟨⟨hm, hl⟩, hr⟩ := hb
  have hi0 : i = 0 := by
    rcases hl with h0 | hnw
    · exact eq_of_beq h0
    · by_contra hne0
      have hi1 : i - 1 < t.length := by omega
      rw [List.getD_eq_getElem t ' ' hi1] at hnw
      rw [hw _ (List.getElem_mem hi1)] at hnw
      exact absurd hnw (by decide)
  subst hi0
  simp only [matchAt, List.drop_zero, List.isPrefixOf_iff_prefix] at hm
  have hlen : pat.length ≤ t.length := hm.length_le
  rcases lt_or_eq_of_le hlen with hlt | heq
  · rw [Nat.zero_add] at hr
    rw [List.getD_eq_getElem t ' ' hlt] at hr
    rw [hw _ (List.getElem_mem hlt)] at hr
    exact absurd hr (by decide)
  · exact hne (hm.eq_of_length heq).symm

/-- **C2 counterexample.**  The claim says every keyword match uses
word-boundary matching, so a keyword embedded as a substring inside a
longer unrelated word must not increase the score.  But the keyword list
contains `'cra'`, matched by plain substring containment
(`keyword in text_lower`, line 131), so the single unrelated word `"crab"`
scores `0.15`, not `0`. -/
theorem c2_counterexample :
    calculate_canadian_score (some ("crab".toList)) = 3 / 20
      ∧ ¬calculate_canadian_score (some ("crab".toList)) = 0 := by
  have h : calculate_canadian_score (some ("crab".toList)) = 3 / 20 := by
    rw [score_eval ("crab".toList) (by decide) 0 0 0 1 false (by decide)
      (by decide) (by decide) (by decide) (by decide)]
    norm_num [pymin]
  refine ⟨h, by rw [h]; norm_num⟩

/-- **C2 (amended).**  City, province-name, and province-code matching is
word-bounded: any of those terms embedded inside a longer token consisting
of word characters never matches (first conjunct, fully general), so e.g.
`"bond"` — which contains the province code `'on'` — scores `0`, while the
word-bounded `"on"` scores `0.2`.  Domain keywords, however, are matched by
plain substring containment, so the embedded keyword `'cra'` makes
`"crab"` score `0.15`. -/
theorem c2_word_boundary_amended :
    (∀ pat ∈ CITIES ++ PROVINCES ++ PROVINCE_CODES, ∀ w : List Char,
        (∀ c ∈ w, isWordChar c = true) → w ≠ pat → searchWB pat w = false)
    ∧ calculate_canadian_score (some ("on".toList)) = 1 / 5
    ∧ calculate_canadian_score (some ("bond".toList)) = 0
    ∧ calculate_canadian_score (some ("crab".toList)) = 3 / 20 := by
  refine ⟨fun pat _ w hw hne => searchWB_allWord pat w hw hne, ?_, ?_, ?_⟩
  · rw [score_eval ("on".toList) (by decide) 0 0 1 0 false (by decide)
      (by decide) (by decide) (by decide) (by decide)]
    norm_num [pymin]
  · rw [score_eval ("bond".toList) (by decide) 0 0 0 0 false (by decide)
      (by decide) (by decide) (by decide) (by decide)]
    norm_num [pymin]
  · rw [score_eval ("crab".toList) (by decide) 0 0 0 1 false (by decide)
      (by decide) (by decide) (by decide) (by decide)]
    norm_num [pymin]

/-- Witness for the amended C2: instantiating the universal word-boundary
conjunct at the province code `'on'` embedded in the word `"bond"`. -/
theorem c2_word_boundary_amended_witness :
    searchWB ("on".toList) ("bond".toList) = false :=
  c2_word_boundary_amended.1 ("on".toList) (by decide) ("bond".toList)
    (by decide) (by decide)

/-- **C4.**  The time-decay multipliers are step functions of the age with
the stated per-kind buckets (social `1.0 / 0.8 / 0.5 / 0.2`, news
`1.0 / 0.7 / 0.4 / 0.1`), and the comparisons are strict `<`: an age
exactly at a bucket boundary (`6`, `12`, `24` hours) falls into the bucket
having that value as its (closed) lower bound, not the fresher one. -/
theorem c4_time_decay_buckets (a : ℚ) :
    (a < 6 → redditTimeMultiplier a = 1 ∧ newsTimeMultiplier a = 1)
    ∧ (6 ≤ a → a < 12 →
        redditTimeMultiplier a = 4 / 5 ∧ newsTimeMultiplier a = 7 / 10)
    ∧ (12 ≤ a → a < 24 →
        redditTimeMultiplier a = 1 / 2 ∧ newsTimeMultiplier a = 2 / 5)
    ∧ (24 ≤ a → redditTimeMultiplier a = 1 / 5 ∧ newsTimeMultiplier a = 1 / 10)
    ∧ (redditTimeMultiplier 6 = 4 / 5 ∧ redditTimeMultiplier 12 = 1 / 2
        ∧ redditTimeMultiplier 24 = 1 / 5 ∧ newsTimeMultiplier 6 = 7 / 10
        ∧ newsTimeMultiplier 12 = 2 / 5 ∧ newsTimeMultiplier 24 = 1 / 10) := by
  refine ⟨fun h1 => ?_, fun h1 h2 => ?_, fun h1 h2 => ?_, fun h1 => ?_, ?_⟩
  · rw [redditTimeMultiplier, if_pos h1, newsTimeMultiplier, if_pos h1]
    exact ⟨rfl, rfl⟩
  · rw [redditTimeMultiplier, if_neg (by linarith), if_pos h2,
      newsTimeMultiplier, if_neg (by linarith), if_pos h2]
    exact ⟨rfl, rfl⟩
  · rw [redditTimeMultiplier, if_neg (by linarith), if_neg (by linarith),
      if_pos h2, newsTimeMultiplier, if_neg (by linarith),
      if_neg (by linarith), if_pos h2]
    exact ⟨rfl, rfl⟩
  · rw [redditTimeMultiplier, if_neg (by linarith), if_neg (by linarith),
      if_neg (by linarith), newsTimeMultiplier, if_neg (by linarith),
      if_neg (by linarith), if_neg (by linarith)]
    exact ⟨rfl, rfl⟩
  · norm_num [redditTimeMultiplier, newsTimeMultiplier]

/-- Witness for C4: the age exactly `7` is in the second social bucket and
the age `30` in the last news bucket. -/
theorem c4_time_decay_buckets_witness :
    redditTimeMultiplier 7 = 4 / 5 ∧ newsTimeMultiplier 30 = 1 / 10 :=
  ⟨((c4_time_decay_buckets 7).2.1 (by norm_num) (by norm_num)).1,
   ((c4_time_decay_buckets 30).2.2.2.1 (by norm_num)).2⟩

/-- **C8.**  Missing or zero social timestamps give age `999` hours and
multiplier `0.2`; absent or unparseable news timestamps give age `0` and
multiplier `1.0`; in both cases the scoring functions return the defined
value of the usual formula with that multiplier (they are total). -/
theorem c8_timestamp_fallbacks (log10 : ℚ → ℚ) (now : ℚ) (post : RedditPost)
    (article : NewsArticle)
    (hp : post.created_utc = none ∨ post.created_utc = some 0)
    (ha : article.published = Published.missing
      ∨ article.published = Published.badString) :
    redditAgeHours now post = 999
    ∧ redditTimeMultiplier (redditAgeHours now post) = 1 / 5
    ∧ calculate_reddit_score log10 now post
        = round3 (log10 (pymax ((post.score.getD 0 : ℚ) * 1
            + (post.num_comments.getD 0 : ℚ) * 2) 1) * (1 / 5)
            * (1 + post.canadian_score.getD 0 * (1 / 2)))
    ∧ newsAgeHours now article = 0
    ∧ newsTimeMultiplier (newsAgeHours now article) = 1
    ∧ calculate_news_score now article
        = round3 (5 * 1 * sourceBoost article
            * (1 + article.canadian_score.getD 0 * (1 / 2))) := by
  have hage : redditAgeHours now post = 999 := by
    rcases hp with h | h <;> rw [redditAgeHours, h] <;> norm_num
  have hmul : redditTimeMultiplier (redditAgeHours now post) = 1 / 5 := by
    rw [hage]; norm_num [redditTimeMultiplier]
  have hnage : newsAgeHours now article = 0 := by
    rcases ha with h | h <;> rw [newsAgeHours, h]
  have hnmul : newsTimeMultiplier (newsAgeHours now article) = 1 := by
    rw [hnage]; norm_num [newsTimeMultiplier]
  refine ⟨hage, hmul, ?_, hnage, hnmul, ?_⟩
  · simp only [calculate_reddit_score, hmul]
  · simp only [calculate_news_score, hnmul]

/-- Witness for C8: a post with the `created_utc` key absent and an article
whose `published` key is absent. -/
theorem c8_timestamp_fallbacks_witness :
    redditAgeHours 1000 ⟨some 10, some 2, none, some (1 / 2)⟩ = 999
      ∧ newsAgeHours 1000 ⟨Published.missing, some [], some 1⟩ = 0 :=
  ⟨(c8_timestamp_fallbacks (fun _ => 0) 1000
      ⟨some 10, some 2, none, some (1 / 2)⟩
      ⟨Published.missing, some [], some 1⟩ (Or.inl rfl) (Or.inl rfl)).1,
   (c8_timestamp_fallbacks (fun _ => 0) 1000
      ⟨some 10, some 2, none, some (1 / 2)⟩
      ⟨Published.missing, some [], some 1⟩
      (Or.inl rfl) (Or.inl rfl)).2.2.2.1⟩

/-- **C10.**  A record with no relevance-score field at all (`none`) is
scored with relevance `0.0`: the relevance boost is exactly `1.0` and both
trending-score functions return the defined value of their formula with
boost `1` (they are total on unscored records). -/
theorem c10_unscored_records (log10 : ℚ → ℚ) (now : ℚ)
    (post : RedditPost) (article : NewsArticle)
    (hp : post.canadian_score = none) (ha : article.canadian_score = none) :
    post.canadian_score.getD 0 = 0
    ∧ (1 : ℚ) + post.canadian_score.getD 0 * (1 / 2) = 1
    ∧ article.canadian_score.getD 0 = 0
    ∧ (1 : ℚ) + article.canadian_score.getD 0 * (1 / 2) = 1
    ∧ calculate_reddit_score log10 now post
        = round3 (log10 (pymax ((post.score.getD 0 : ℚ) * 1
            + (post.num_comments.getD 0 : ℚ) * 2) 1)
            * redditTimeMultiplier (redditAgeHours now post) * 1)
    ∧ calculate_news_score now article
        = round3 (5 * newsTimeMultiplier (newsAgeHours now article)
            * sourceBoost article * 1) := by
  have h1 : post.canadian_score.getD 0 = 0 := by rw [hp]; rfl
  have h2 : article.canadian_score.getD 0 = 0 := by rw [ha]; rfl
  refine ⟨h1, by rw [h1]; norm_num, h2, by rw [h2]; norm_num, ?_, ?_⟩
  · simp only [calculate_reddit_score, h1]
    norm_num
  · simp only [calculate_news_score, h2]
    norm_num

/-- Witness for C10: records whose `canadian_score` key is absent. -/
theorem c10_unscored_records_witness :
    (1 : ℚ) + (none : Option ℚ).getD 0 * (1 / 2) = 1 :=
  (c10_unscored_records (fun _ => 0) 0 ⟨some 1, some 1, some 1, none⟩
    ⟨Published.nonString, some [], none⟩ rfl rfl).2.1

theorem searchableText_title_only (t : List Char) (sub : Option (List Char))
    (cs : Option ℚ) :
    searchableText ⟨some t, none, none, sub, cs⟩ = t := by
  simp [searchableText]

theorem score_single_x : calculate_canadian_score (some ("x".toList)) = 0 := by
  rw [score_eval ("x".toList) (by decide) 0 0 0 0 false (by decide) (by decide)
    (by decide) (by decide) (by decide)]
  norm_num [pymin]

/-- **C6.**  `is_canadian` computes the relevance score over the
concatenation of the title with the optional body (`selftext`) and summary
fields, each joined by a space; writes it onto the record under
`canadian_score` (leaving all other fields unchanged); and returns
`score >= threshold`.  The score is attached unconditionally — in
particular also when the returned decision is `false`. -/
theorem c6_classify_writes_score (c : Content) (threshold : ℚ) :
    (is_canadian c threshold).1.canadian_score
        = some (calculate_canadian_score (some (searchableText c)))
    ∧ ((is_canadian c threshold).2 = true
        ↔ threshold ≤ calculate_canadian_score (some (searchableText c)))
    ∧ (is_canadian c threshold).1.title = c.title
    ∧ (is_canadian c threshold).1.selftext = c.selftext
    ∧ (is_canadian c threshold).1.summary = c.summary
    ∧ (is_canadian c threshold).1.subreddit = c.subreddit
    ∧ ((is_canadian c threshold).2 = false →
        (is_canadian c threshold).1.canadian_score
          = some (calculate_canadian_score (some (searchableText c)))) :=
  ⟨rfl, ⟨of_decide_eq_true, decide_eq_true⟩, rfl, rfl, rfl, rfl, fun _ => rfl⟩

/-- Witness for C6: a record scoring `0`, rejected at threshold `0.2`,
still carries its computed score. -/
theorem c6_classify_writes_score_witness :
    (is_canadian ⟨some ("x".toList), none, none, none, none⟩ (1 / 5)).1.canadian_score
      = some (calculate_canadian_score
          (some (searchableText ⟨some ("x".toList), none, none, none, none⟩))) := by
  refine (c6_classify_writes_score
    ⟨some ("x".toList), none, none, none, none⟩ (1 / 5)).2.2.2.2.2.2 ?_
  have hs : calculate_canadian_score
      (some (searchableText ⟨some ("x".toList), none, none, none, none⟩)) = 0 := by
    rw [searchableText_title_only, score_single_x]
  simp only [is_canadian, hs, decide_eq_false_iff_not]
  norm_num

/-- **C5.**  `filter_by_subreddit` applies exactly the three-tier static
origin policy to each post: a post whose (lowercased) subreddit is in the
fixed Canadian set is kept with its score forced to `1.0` (no text
analysis); a post from the fixed pet set is kept iff its computed score
meets `0.15`; every other post is kept iff its computed score meets
`0.3` — in the latter two cases with the computed score attached. -/
theorem c5_three_tier_policy (post : Content) (rest : List Content) :
    ((post.subreddit.getD []).map pyLower ∈ canadian_subreddits →
      filter_by_subreddit (post :: rest)
        = { post with canadian_score := some 1 } :: filter_by_subreddit rest)
    ∧ ((post.subreddit.getD []).map pyLower ∉ canadian_subreddits →
       (post.subreddit.getD []).map pyLower ∈ pet_subreddits →
      filter_by_subreddit (post :: rest)
        = if 3 / 20 ≤ calculate_canadian_score (some (searchableText post))
          then (is_canadian post (3 / 20)).1 :: filter_by_subreddit rest
          else filter_by_subreddit rest)
    ∧ ((post.subreddit.getD []).map pyLower ∉ canadian_subreddits →
       (post.subreddit.getD []).map pyLower ∉ pet_subreddits →
      filter_by_subreddit (post :: rest)
        = if 3 / 10 ≤ calculate_canadian_score (some (searchableText post))
          then (is_canadian post (3 / 10)).1 :: filter_by_subreddit rest
          else filter_by_subreddit rest) := by
  refine ⟨fun h1 => ?_, fun h1 h2 => ?_, fun h1 h2 => ?_⟩
  · simp only [filter_by_subreddit]
    rw [if_pos h1]
  · simp only [filter_by_subreddit]
    rw [if_neg h1, if_pos h2]
    by_cases hs : (3 : ℚ) / 20
        ≤ calculate_canadian_score (some (searchableText post))
    · simp only [is_canadian, decide_eq_true hs, if_pos hs]
    · simp only [is_canadian, decide_eq_false hs, if_neg hs]
  · simp only [filter_by_subreddit]
    rw [if_neg h1, if_neg h2]
    by_cases hs : (3 : ℚ) / 10
        ≤ calculate_canadian_score (some (searchableText post))
    · simp only [is_canadian, decide_eq_true hs, if_pos hs]
    · simp only [is_canadian, decide_eq_false hs, if_neg hs]

/-- Witness for C5: a post from `r/toronto` is auto-included with score
forced to `1.0`, and a post from an unknown subreddit with no Canadian
signal is rejected at threshold `0.3`. -/
theorem c5_three_tier_policy_witness :
    filter_by_subreddit
        [⟨some ("t".toList), none, none, some ("Toronto".toList), none⟩]
      = [⟨some ("t".toList), none, none, some ("Toronto".toList), some 1⟩]
    ∧ filter_by_subreddit
        [⟨some ("x".toList), none, none, some ("dogpark".toList), none⟩] = [] := by
  constructor
  · rw [(c5_three_tier_policy
      ⟨some ("t".toList), none, none, some ("Toronto".toList), none⟩ []).1
      (by decide)]
    rfl
  · rw [(c5_three_tier_policy
      ⟨some ("x".toList), none, none, some ("dogpark".toList), none⟩ []).2.2
      (by decide) (by decide)]
    rw [searchableText_title_only, score_single_x, if_neg (by norm_num)]
    rfl

/-- **C9 counterexample.**  On the empty collection both statistics
functions do return zero
`total_items`/`avg_score`/`min_score`/`max_score`, but the relevance-band
counts, per-kind counts, and top-5 slice are *absent* from the returned
dictionaries (the empty-input branches return four-key dictionaries), not
present with zero/empty values as the claim states. -/
theorem c9_counterexample :
    (get_filter_statistics []).high_relevance = none
    ∧ ¬(get_filter_statistics []).high_relevance = some 0
    ∧ (get_ranking_statistics []).reddit_items = none
    ∧ ¬(get_ranking_statistics []).reddit_items = some 0
    ∧ (get_ranking_statistics []).top_5_scores = none
    ∧ ¬(get_ranking_statistics []).top_5_scores = some [] := by
  refine ⟨rfl, by decide, rfl, by decide, rfl, by decide⟩

/-- **C9 (amended).**  On the empty collection both statistics functions
return (without raising or dividing by zero) a dictionary with
`total_items = 0` and `0.0` mean/min/max; the band counts, per-kind counts
and top-5 slice keys are omitted in this case. -/
theorem c9_empty_statistics :
    get_filter_statistics []
      = { total_items := 0, avg_score := 0, min_score := 0, max_score := 0,
          high_relevance := none, medium_relevance := none,
          low_relevance := none }
    ∧ get_ranking_statistics []
      = { total_items := 0, avg_score := 0, max_score := 0, min_score := 0,
          reddit_items := none, news_items := none, top_5_scores := none } :=
  ⟨rfl, rfl⟩

/-- **C3.**  `rank_all_content` returns all items of both input lists with
no truncation (the output length is the sum of the input lengths); the
output is a permutation of the two tagged input lists, so every returned
item carries its computed trending score and the kind tag of its source
list (`tagReddit` for posts, `tagNews` for articles); the output is sorted
descending by trending score (`rankLE`); items of equal trending score
keep their input order (the filter at any given score value is unchanged,
Reddit items first as in the concatenation); and the empty inputs produce
the empty sequence. -/
theorem c3_rank_all_content (log10 : ℚ → ℚ) (now : ℚ)
    (reddit_posts : List RedditPost) (news_articles : List NewsArticle) :
    (rank_all_content log10 now reddit_posts news_articles).length
        = reddit_posts.length + news_articles.length
    ∧ (rank_all_content log10 now reddit_posts news_articles).Perm
        (reddit_posts.map (tagReddit log10 now)
          ++ news_articles.map (tagNews now))
    ∧ List.Sorted rankLE (rank_all_content log10 now reddit_posts news_articles)
    ∧ (∀ q : ℚ,
        (rank_all_content log10 now reddit_posts news_articles).filter
            (fun x => decide (x.trending_score = q))
          = (reddit_posts.map (tagReddit log10 now)
              ++ news_articles.map (tagNews now)).filter
            (fun x => decide (x.trending_score = q)))
    ∧ rank_all_content log10 now [] [] = [] := by
  have hperm : (rank_all_content log10 now reddit_posts news_articles).Perm
      (reddit_posts.map (tagReddit log10 now)
        ++ news_articles.map (tagNews now)) :=
    List.perm_insertionSort rankLE _
  refine ⟨?_, hperm, List.sorted_insertionSort rankLE _, fun q => ?_, rfl⟩
  · rw [hperm.length_eq, List.length_append, List.length_map, List.length_map]
  · have hpair : ((reddit_posts.map (tagReddit log10 now)
        ++ news_articles.map (tagNews now)).filter
          (fun x => decide (x.trending_score = q))).Pairwise rankLE := by
      apply List.pairwise_of_forall_mem_list
      intro a ha b hb
      have ha' : a.trending_score = q :=
        of_decide_eq_true (List.mem_filter.mp ha).2
      have hb' : b.trending_score = q :=
        of_decide_eq_true (List.mem_filter.mp hb).2
      rw [rankLE, ha', hb']
    have hsl : List.Sublist
        ((reddit_posts.map (tagReddit log10 now)
          ++ news_articles.map (tagNews now)).filter
            (fun x => decide (x.trending_score = q)))
        (rank_all_content log10 now reddit_posts news_articles) :=
      List.sublist_insertionSort hpair (List.filter_sublist _)
    have hsl2 := List.Sublist.filter (fun x => decide (x.trending_score = q)) hsl
    rw [List.filter_eq_self.mpr
      (fun a ha => (List.mem_filter.mp ha).2)] at hsl2
    have hql := (hperm.filter (fun x => decide (x.trending_score = q))).length_eq
    exact (hsl2.eq_of_length hql.symm).symm

end PetPulse
